import Mathlib

/-!
Shallow embedding of the HTTP/2 sans-I/O frame codec (`src/h2_codec.rs`) and
verification of its specification claims.

Modelling conventions:
* Wire bytes are `Nat` values (`u8` values are `0..255`; the embedding keeps
  the source's arithmetic exactly, so no global bound is needed).
* Rust `u32::from_be_bytes` / the source's or-composition of disjoint shifted
  bytes is embedded as the big-endian weighted sum (`be32`); for byte values
  the two coincide bit for bit.
* `u32` masking with `& 0x7FFFFFFF` is embedded with `Nat.land` (`&&&`).
* Fallible Rust functions returning `Result<_, String>` become `Except String`;
  a reachable Rust panic (out-of-range `Vec::drain`) is modelled explicitly as
  a distinguished `panic`/`none` outcome, never silently totalised.
* `HashMap<u32, StreamState>` becomes an association list with first-match
  lookup, in-place update and key removal; the codec only ever uses point
  lookups and point updates, so the representation is observationally exact.
-/

/- HTTP/2 frame types (RFC 7540 Section 6), module `frame_type` in the source. -/
namespace frame_type

def DATA : Nat := 0x0

def HEADERS : Nat := 0x1

def PRIORITY : Nat := 0x2

def RST_STREAM : Nat := 0x3

def SETTINGS : Nat := 0x4

def PUSH_PROMISE : Nat := 0x5

def PING : Nat := 0x6

def GOAWAY : Nat := 0x7

def WINDOW_UPDATE : Nat := 0x8

def CONTINUATION : Nat := 0x9

end frame_type

/- HTTP/2 frame flags, module `flags` in the source. -/
namespace flags

def END_STREAM : Nat := 0x1

def END_HEADERS : Nat := 0x4

def PADDED : Nat := 0x8

def PRIORITY : Nat := 0x20

end flags

/-- `u32::from_be_bytes([b0,b1,b2,b3])`: the source composes disjoint shifted
bytes with `|`; for byte values this equals the weighted sum. -/
def be32 (b0 b1 b2 b3 : Nat) : Nat :=
  b0 * 2 ^ 24 + b1 * 2 ^ 16 + b2 * 2 ^ 8 + b3

/-- A parsed HTTP/2 frame header (9 bytes). -/
structure H2FrameHeader where
  length : Nat
  frame_type : Nat
  flags : Nat
  stream_id : Nat
deriving DecidableEq

namespace H2FrameHeader

/-- `H2FrameHeader::parse`: requires 9 bytes; 24-bit big-endian length, type,
flags, then the 32-bit big-endian stream id with the reserved bit cleared
(`& 0x7FFFFFFF`). -/
def parse (data : List Nat) : Option H2FrameHeader :=
  if data.length < 9 then none
  else
    some
      { length := (data.getD 0 0) * 2 ^ 16 + (data.getD 1 0) * 2 ^ 8 + data.getD 2 0
        frame_type := data.getD 3 0
        flags := data.getD 4 0
        stream_id :=
          ((data.getD 5 0) * 2 ^ 24 + (data.getD 6 0) * 2 ^ 16 +
              (data.getD 7 0) * 2 ^ 8 + data.getD 8 0) &&& 0x7FFFFFFF }

/-- Total frame size including the 9-byte header. -/
def total_size (h : H2FrameHeader) : Nat := 9 + h.length

/-- END_STREAM flag (bit 0x1). -/
def is_end_stream (h : H2FrameHeader) : Bool := h.flags &&& flags.END_STREAM != 0

/-- END_HEADERS flag (bit 0x4). -/
def is_end_headers (h : H2FrameHeader) : Bool := h.flags &&& flags.END_HEADERS != 0

end H2FrameHeader

/-- Events emitted by the codec (`H2Event` in the source). -/
inductive H2Event where
  | headers (stream_id : Nat) (header_block : List Nat) (end_stream : Bool)
  | data (stream_id : Nat) (data : List Nat) (end_stream : Bool)
  | streamReset (stream_id : Nat) (error_code : Nat)
  | goAway (last_stream_id : Nat) (error_code : Nat)
  | settings (ack : Bool) (settings : List (Nat × Nat))
  | windowUpdate (stream_id : Nat) (increment : Nat)
  | ping (ack : Bool) (data : List Nat)
deriving DecidableEq

/-- Lifecycle state for one stream (`StreamState`, `Default` = both false). -/
structure StreamState where
  headers_complete : Bool
  stream_ended : Bool
deriving DecidableEq

def defaultStreamState : StreamState := ⟨false, false⟩

/-- Point lookup in the stream table (`HashMap::get`). -/
def findStream (streams : List (Nat × StreamState)) (id : Nat) : Option StreamState :=
  (streams.find? (fun e => e.1 == id)).map (fun e => e.2)

/-- Point update/insert in the stream table (`HashMap::entry(..).or_default()`
followed by in-place mutation, or `insert`). -/
def setStream : List (Nat × StreamState) → Nat → StreamState → List (Nat × StreamState)
  | [], id, st => [(id, st)]
  | (k, v) :: rest, id, st =>
    if k = id then (id, st) :: rest else (k, v) :: setStream rest id st

/-- Key removal from the stream table (`HashMap::remove`). -/
def removeStream (streams : List (Nat × StreamState)) (id : Nat) : List (Nat × StreamState) :=
  streams.filter (fun e => e.1 != id)

/-- The codec's connection state (`H2Codec` fields). -/
structure H2Codec where
  buffer : List Nat
  streams : List (Nat × StreamState)
  preface_received : Bool
  pending_headers_stream : Option Nat
  pending_headers_end_stream : Bool
  pending_header_block : List Nat
deriving DecidableEq

/-- `H2Codec::new()` / `Default::default()`. -/
def H2Codec.new : H2Codec :=
  { buffer := []
    streams := []
    preface_received := false
    pending_headers_stream := none
    pending_headers_end_stream := false
    pending_header_block := [] }

/-- Maximum accumulated header block size (256 KB). -/
def MAX_HEADER_BLOCK_SIZE : Nat := 256 * 1024

/-- The 24-byte HTTP/2 connection preface literal
`PRI * HTTP/2.0\r\n\r\nSM\r\n\r\n` as byte values. -/
def CONNECTION_PREFACE : List Nat :=
  [80, 82, 73, 32, 42, 32, 72, 84, 84, 80, 47, 50, 46, 48, 13, 10, 13, 10, 83, 77, 13, 10, 13, 10]

/-- `is_h2c_preface`: prefix check against the preface literal. -/
def is_h2c_preface (data : List Nat) : Bool :=
  decide (24 ≤ data.length ∧ data.take 24 = CONNECTION_PREFACE)

namespace H2Codec

/-- `H2Codec::extract_data_payload`: strips the PADDED prefix byte and the
trailing padding (`truncate` to `len - pad_length`, then `remove(0)`). -/
def extract_data_payload (h : H2FrameHeader) (payload : List Nat) :
    Except String (List Nat) :=
  if h.flags &&& flags.PADDED != 0 then
    if payload = [] then .error "PADDED DATA frame with no payload"
    else
      let pad_length := payload.headD 0
      if pad_length ≥ payload.length then .error "Invalid padding length in DATA frame"
      else .ok ((payload.take (payload.length - pad_length)).drop 1)
  else .ok payload

/-- `H2Codec::extract_headers_payload`: PADDED then PRIORITY handling, then
`truncate end; drain(..offset)`. The result is `none` exactly when the Rust
code would reach `Vec::drain` with `offset` beyond the truncated length and
panic; no error return exists on that path in the source. -/
def extract_headers_payload (h : H2FrameHeader) (payload : List Nat) :
    Option (Except String (List Nat)) :=
  let stage1 : Except String (Nat × Nat) :=
    if h.flags &&& flags.PADDED != 0 then
      if payload.length = 0 then .error "PADDED HEADERS frame with no payload"
      else if payload.headD 0 ≥ payload.length - 1 then
        .error "Invalid padding length in HEADERS frame"
      else .ok (1, payload.length - payload.headD 0)
    else .ok (0, payload.length)
  match stage1 with
  | .error e => some (.error e)
  | .ok (offset, endIdx) =>
    let stage2 : Except String Nat :=
      if h.flags &&& flags.PRIORITY != 0 then
        if payload.length - offset < 5 then
          .error "PRIORITY HEADERS frame with insufficient data"
        else .ok (offset + 5)
      else .ok offset
    match stage2 with
    | .error e => some (.error e)
    | .ok offset2 =>
      if offset2 = 0 ∧ endIdx = payload.length then some (.ok payload)
      else if endIdx < offset2 then none
      else some (.ok ((payload.take endIdx).drop offset2))

end H2Codec

/-- Result of `H2Codec::parse_frame` on one frame: the mutated codec state and
an optional event, an error (state mutations before the `return Err` persist),
or a Rust panic. -/
inductive FrameResult where
  | panic : FrameResult
  | fail : H2Codec → String → FrameResult
  | done : H2Codec → Option H2Event → FrameResult
deriving DecidableEq

namespace H2Codec

/-- `H2Codec::parse_frame`: per-frame-type dispatch. -/
def parse_frame (s : H2Codec) (h : H2FrameHeader) (payload : List Nat) : FrameResult :=
  if h.frame_type = frame_type.DATA then
    match extract_data_payload h payload with
    | .error e => .fail s e
    | .ok d =>
      let st := (findStream s.streams h.stream_id).getD defaultStreamState
      let st := if h.is_end_stream then { st with stream_ended := true } else st
      .done { s with streams := setStream s.streams h.stream_id st }
        (some (.data h.stream_id d h.is_end_stream))
  else if h.frame_type = frame_type.HEADERS then
    match extract_headers_payload h payload with
    | none => .panic
    | some (.error e) => .fail s e
    | some (.ok header_block) =>
      let st := (findStream s.streams h.stream_id).getD defaultStreamState
      let st := if h.is_end_stream then { st with stream_ended := true } else st
      if h.is_end_headers then
        .done
          { s with streams := setStream s.streams h.stream_id { st with headers_complete := true } }
          (some (.headers h.stream_id header_block h.is_end_stream))
      else
        let s := { s with streams := setStream s.streams h.stream_id st }
        if header_block.length > MAX_HEADER_BLOCK_SIZE then
          .fail s
            ("Header block too large (" ++ toString header_block.length ++ " bytes, max " ++
              toString MAX_HEADER_BLOCK_SIZE ++ ")")
        else
          .done
            { s with pending_headers_stream := some h.stream_id
                     pending_headers_end_stream := h.is_end_stream
                     pending_header_block := header_block }
            none
  else if h.frame_type = frame_type.CONTINUATION then
    match s.pending_headers_stream with
    | some pending_stream =>
      if pending_stream ≠ h.stream_id then
        .fail s
          ("CONTINUATION for stream " ++ toString h.stream_id ++
            " but pending headers on stream " ++ toString pending_stream)
      else
        let new_size := s.pending_header_block.length + payload.length
        if new_size > MAX_HEADER_BLOCK_SIZE then
          .fail { s with pending_headers_stream := none, pending_header_block := [] }
            ("Header block too large (" ++ toString new_size ++ " bytes, max " ++
              toString MAX_HEADER_BLOCK_SIZE ++ ")")
        else
          let s := { s with pending_header_block := s.pending_header_block ++ payload }
          if h.is_end_headers then
            let st := (findStream s.streams h.stream_id).getD defaultStreamState
            .done
              { s with
                streams := setStream s.streams h.stream_id { st with headers_complete := true }
                pending_header_block := []
                pending_headers_stream := none
                pending_headers_end_stream := false }
              (some (.headers h.stream_id s.pending_header_block s.pending_headers_end_stream))
          else .done s none
    | none => .fail s ("Unexpected CONTINUATION frame for stream " ++ toString h.stream_id)
  else if h.frame_type = frame_type.RST_STREAM then
    if payload.length < 4 then .fail s "RST_STREAM frame too short"
    else
      let error_code := be32 (payload.getD 0 0) (payload.getD 1 0) (payload.getD 2 0) (payload.getD 3 0)
      .done { s with streams := removeStream s.streams h.stream_id }
        (some (.streamReset h.stream_id error_code))
  else if h.frame_type = frame_type.SETTINGS then
    let ack := h.flags &&& 0x1 != 0
    let settings := if ack = false ∧ 6 ≤ payload.length then parseSettings payload else []
    .done s (some (.settings ack settings))
  else if h.frame_type = frame_type.GOAWAY then
    if payload.length < 8 then .fail s "GOAWAY frame too short"
    else
      let last_stream_id :=
        be32 (payload.getD 0 0) (payload.getD 1 0) (payload.getD 2 0) (payload.getD 3 0) &&& 0x7FFFFFFF
      let error_code :=
        be32 (payload.getD 4 0) (payload.getD 5 0) (payload.getD 6 0) (payload.getD 7 0)
      .done s (some (.goAway last_stream_id error_code))
  else if h.frame_type = frame_type.WINDOW_UPDATE then
    if payload.length < 4 then .fail s "WINDOW_UPDATE frame too short"
    else
      let increment :=
        be32 (payload.getD 0 0) (payload.getD 1 0) (payload.getD 2 0) (payload.getD 3 0) &&& 0x7FFFFFFF
      .done s (some (.windowUpdate h.stream_id increment))
  else if h.frame_type = frame_type.PING then
    if payload.length < 8 then .fail s "PING frame too short"
    else .done s (some (.ping (h.flags &&& 0x1 != 0) (payload.take 8)))
  else
    -- PRIORITY, PUSH_PROMISE and unknown frame types are consumed, no event
    .done s none
where
  /-- The SETTINGS entry loop: consecutive 6-byte (u16 id, u32 value) entries,
  trailing incomplete entry dropped. -/
  parseSettings : List Nat → List (Nat × Nat)
    | a :: b :: c :: d :: e :: f :: rest => (a * 2 ^ 8 + b, be32 c d e f) :: parseSettings rest
    | _ => []

end H2Codec

/-- Result of `H2Codec::process`: the mutated codec and the collected events,
an error (buffer consumption persists, collected events are dropped), or a
Rust panic. -/
inductive ProcResult where
  | panic : ProcResult
  | fail : H2Codec → String → ProcResult
  | ok : H2Codec → List H2Event → ProcResult
deriving DecidableEq

namespace ProcResult

/-- Prepend a frame's optional event to the events of a later result
(the `events.push(event)` accumulation, error-transparent). -/
def consEv (ev : Option H2Event) : ProcResult → ProcResult
  | .panic => .panic
  | .fail t m => .fail t m
  | .ok t evs =>
    .ok t
      (match ev with
        | some e => e :: evs
        | none => evs)

/-- Map over the event list of a successful result. -/
def mapEvents (f : List H2Event → List H2Event) : ProcResult → ProcResult
  | .panic => .panic
  | .fail t m => .fail t m
  | .ok t evs => .ok t (f evs)

end ProcResult

namespace H2Codec

/-- The frame loop of `H2Codec::process`: while the buffer holds a complete
frame, slice it off and dispatch it. The loop consumes at least 9 bytes per
iteration, so `fuel := buffer.length` always suffices; fuel only bounds the
structural recursion. -/
def processFrames : Nat → H2Codec → ProcResult
  | 0, s => .ok s []
  | fuel + 1, s =>
    if s.buffer.length < 9 then .ok s []
    else
      match H2FrameHeader.parse s.buffer with
      | none => .ok s []
      | some header =>
        if s.buffer.length < header.total_size then .ok s []
        else
          let payload := (s.buffer.take header.total_size).drop 9
          let s1 := { s with buffer := s.buffer.drop header.total_size }
          match parse_frame s1 header payload with
          | .panic => .panic
          | .fail t m => .fail t m
          | .done t ev => (processFrames fuel t).consEv ev

/-- `H2Codec::process`: append input, opportunistically consume the connection
preface (once per call, only while unreceived and with 24 or more bytes
buffered), then run the frame loop. -/
def process (s : H2Codec) (data : List Nat) : ProcResult :=
  let s1 := { s with buffer := s.buffer ++ data }
  let s2 :=
    if s1.preface_received = false ∧ 24 ≤ s1.buffer.length ∧ s1.buffer.take 24 = CONNECTION_PREFACE
    then { s1 with buffer := s1.buffer.drop 24, preface_received := true }
    else s1
  processFrames s2.buffer.length s2

/-- Feeding an input as a sequence of `process` calls, concatenating the
events; an error or panic in any call is the result of the whole run. -/
def processChunks (s : H2Codec) : List (List Nat) → ProcResult
  | [] => .ok s []
  | c :: cs =>
    match process s c with
    | .panic => .panic
    | .fail t m => .fail t m
    | .ok t evs => (processChunks t cs).mapEvents (fun x => evs ++ x)

/-- `H2Codec::remove_stream`. -/
def remove_stream (s : H2Codec) (stream_id : Nat) : H2Codec :=
  { s with streams := removeStream s.streams stream_id }

/-- `H2Codec::reset`. -/
def reset (_s : H2Codec) : H2Codec := H2Codec.new

/-- `u32::to_be_bytes` of a value, as four `u8` byte values. -/
def toBeBytes4 (x : Nat) : List Nat :=
  [x / 2 ^ 24 % 256, x / 2 ^ 16 % 256, x / 2 ^ 8 % 256, x % 256]

/-- `H2Codec::create_rst_stream`: length 4, type RST_STREAM, no flags, raw
stream id bytes, error code bytes. -/
def create_rst_stream (stream_id error_code : Nat) : List Nat :=
  [0, 0, 4, frame_type.RST_STREAM, 0] ++ toBeBytes4 stream_id ++ toBeBytes4 error_code

/-- `H2Codec::create_goaway`. -/
def create_goaway (last_stream_id error_code : Nat) : List Nat :=
  [0, 0, 8, frame_type.GOAWAY, 0, 0, 0, 0, 0] ++ toBeBytes4 last_stream_id ++ toBeBytes4 error_code

/-- `H2Codec::create_settings_ack`. -/
def create_settings_ack : List Nat :=
  [0, 0, 0, frame_type.SETTINGS, 0x1, 0, 0, 0, 0]

/-- `H2Codec::create_settings` (empty, defaults). -/
def create_settings : List Nat :=
  [0, 0, 0, frame_type.SETTINGS, 0x0, 0, 0, 0, 0]

/-- `H2Codec::create_settings_with_window`. -/
def create_settings_with_window (initial_window_size : Nat) : List Nat :=
  [0, 0, 6, frame_type.SETTINGS, 0x0, 0, 0, 0, 0, 0, 4] ++
    [initial_window_size / 2 ^ 24 % 256, initial_window_size / 2 ^ 16 % 256,
      initial_window_size / 2 ^ 8 % 256, initial_window_size % 256]

/-- `H2Codec::create_ping_ack`. -/
def create_ping_ack (data : List Nat) : List Nat :=
  [0, 0, 8, frame_type.PING, 0x1, 0, 0, 0, 0] ++ data

/-- `H2Codec::create_window_update`: the increment is masked with
`& 0x7FFFFFFF`; the stream id bytes are the raw `as u8` casts of the shifted
caller value (no masking in the source). -/
def create_window_update (stream_id increment : Nat) : List Nat :=
  let increment := increment &&& 0x7FFFFFFF
  [0, 0, 4, frame_type.WINDOW_UPDATE, 0x0,
    stream_id / 2 ^ 24 % 256, stream_id / 2 ^ 16 % 256, stream_id / 2 ^ 8 % 256, stream_id % 256,
    increment / 2 ^ 24 % 256, increment / 2 ^ 16 % 256, increment / 2 ^ 8 % 256, increment % 256]

/-- `H2Codec::create_continuation_frame`: 24-bit length of the payload, type
CONTINUATION, optional END_HEADERS flag, raw stream id bytes, payload. -/
def create_continuation_frame (stream_id : Nat) (payload : List Nat) (end_headers : Bool) :
    List Nat :=
  let length := payload.length % 2 ^ 32
  let flags_byte := if end_headers then flags.END_HEADERS else 0x0
  [length / 2 ^ 16 % 256, length / 2 ^ 8 % 256, length % 256, frame_type.CONTINUATION, flags_byte,
    stream_id / 2 ^ 24 % 256, stream_id / 2 ^ 16 % 256, stream_id / 2 ^ 8 % 256, stream_id % 256] ++
    payload

end H2Codec

/-- A fresh codec whose connection preface has already been consumed
(`codec.preface_received = true` in the source's tests). -/
def pastPrefaceCodec : H2Codec :=
  { H2Codec.new with preface_received := true }

/-! ### Helper lemmas about `parse_frame` -/

/-- Replace the buffer of the state carried by a `FrameResult`. -/
def FrameResult.setBuf (X : List Nat) : FrameResult → FrameResult
  | .panic => .panic
  | .fail t m => .fail { t with buffer := X } m
  | .done t ev => .done { t with buffer := X } ev

set_option maxHeartbeats 1600000 in
/-- `parse_frame` neither reads nor writes the connection buffer: running it
from a state with any replacement buffer gives the same outcome with that
buffer carried through. -/
theorem parse_frame_setBuf (s : H2Codec) (h : H2FrameHeader) (p X : List Nat) :
    H2Codec.parse_frame { s with buffer := X } h p =
      (H2Codec.parse_frame s h p).setBuf X := by
  rcases s with ⟨buf, strs, pre, phs, phe, phb⟩
  by_cases h0 : h.frame_type = frame_type.DATA
  · simp only [H2Codec.parse_frame, if_pos h0]
    cases hx : H2Codec.extract_data_payload h p <;> rfl
  by_cases h1 : h.frame_type = frame_type.HEADERS
  · simp only [H2Codec.parse_frame, if_neg h0, if_pos h1]
    rcases hx : H2Codec.extract_headers_payload h p with _ | (e | blk)
    · rfl
    · rfl
    · dsimp only
      split_ifs <;> rfl
  by_cases h2 : h.frame_type = frame_type.CONTINUATION
  · simp only [H2Codec.parse_frame, if_neg h0, if_neg h1, if_pos h2]
    cases phs with
    | none => rfl
    | some q =>
      dsimp only
      split_ifs <;> rfl
  by_cases h3 : h.frame_type = frame_type.RST_STREAM
  · simp only [H2Codec.parse_frame, if_neg h0, if_neg h1, if_neg h2, if_pos h3]
    split_ifs <;> rfl
  by_cases h4 : h.frame_type = frame_type.SETTINGS
  · simp only [H2Codec.parse_frame, if_neg h0, if_neg h1, if_neg h2, if_neg h3, if_pos h4]
    rfl
  by_cases h5 : h.frame_type = frame_type.GOAWAY
  · simp only [H2Codec.parse_frame, if_neg h0, if_neg h1, if_neg h2, if_neg h3, if_neg h4,
      if_pos h5]
    split_ifs <;> rfl
  by_cases h6 : h.frame_type = frame_type.WINDOW_UPDATE
  · simp only [H2Codec.parse_frame, if_neg h0, if_neg h1, if_neg h2, if_neg h3, if_neg h4,
      if_neg h5, if_pos h6]
    split_ifs <;> rfl
  by_cases h7 : h.frame_type = frame_type.PING
  · simp only [H2Codec.parse_frame, if_neg h0, if_neg h1, if_neg h2, if_neg h3, if_neg h4,
      if_neg h5, if_neg h6, if_pos h7]
    split_ifs <;> rfl
  · simp only [H2Codec.parse_frame, if_neg h0, if_neg h1, if_neg h2, if_neg h3, if_neg h4,
      if_neg h5, if_neg h6, if_neg h7]
    rfl

/-- States returned by `parse_frame` keep the caller's buffer and preface
flag: the predicate carried through every non-panic outcome. -/
def FrameResult.StateInv (s : H2Codec) : FrameResult → Prop
  | .panic => True
  | .fail t _ => t.buffer = s.buffer ∧ t.preface_received = s.preface_received
  | .done t _ => t.buffer = s.buffer ∧ t.preface_received = s.preface_received

set_option maxHeartbeats 1600000 in
/-- `parse_frame` never touches the buffer or the preface flag. -/
theorem parse_frame_stateInv (s : H2Codec) (h : H2FrameHeader) (p : List Nat) :
    (H2Codec.parse_frame s h p).StateInv s := by
  rcases s with ⟨buf, strs, pre, phs, phe, phb⟩
  by_cases h0 : h.frame_type = frame_type.DATA
  · simp only [H2Codec.parse_frame, if_pos h0]
    cases hx : H2Codec.extract_data_payload h p <;> exact ⟨rfl, rfl⟩
  by_cases h1 : h.frame_type = frame_type.HEADERS
  · simp only [H2Codec.parse_frame, if_neg h0, if_pos h1]
    rcases hx : H2Codec.extract_headers_payload h p with _ | (e | blk)
    · trivial
    · exact ⟨rfl, rfl⟩
    · dsimp only
      split_ifs <;> exact ⟨rfl, rfl⟩
  by_cases h2 : h.frame_type = frame_type.CONTINUATION
  · simp only [H2Codec.parse_frame, if_neg h0, if_neg h1, if_pos h2]
    cases phs with
    | none => exact ⟨rfl, rfl⟩
    | some q =>
      dsimp only
      split_ifs <;> exact ⟨rfl, rfl⟩
  by_cases h3 : h.frame_type = frame_type.RST_STREAM
  · simp only [H2Codec.parse_frame, if_neg h0, if_neg h1, if_neg h2, if_pos h3]
    split_ifs <;> exact ⟨rfl, rfl⟩
  by_cases h4 : h.frame_type = frame_type.SETTINGS
  · simp only [H2Codec.parse_frame, if_neg h0, if_neg h1, if_neg h2, if_neg h3, if_pos h4]
    exact ⟨rfl, rfl⟩
  by_cases h5 : h.frame_type = frame_type.GOAWAY
  · simp only [H2Codec.parse_frame, if_neg h0, if_neg h1, if_neg h2, if_neg h3, if_neg h4,
      if_pos h5]
    split_ifs <;> exact ⟨rfl, rfl⟩
  by_cases h6 : h.frame_type = frame_type.WINDOW_UPDATE
  · simp only [H2Codec.parse_frame, if_neg h0, if_neg h1, if_neg h2, if_neg h3, if_neg h4,
      if_neg h5, if_pos h6]
    split_ifs <;> exact ⟨rfl, rfl⟩
  by_cases h7 : h.frame_type = frame_type.PING
  · simp only [H2Codec.parse_frame, if_neg h0, if_neg h1, if_neg h2, if_neg h3, if_neg h4,
      if_neg h5, if_neg h6, if_pos h7]
    split_ifs <;> exact ⟨rfl, rfl⟩
  · simp only [H2Codec.parse_frame, if_neg h0, if_neg h1, if_neg h2, if_neg h3, if_neg h4,
      if_neg h5, if_neg h6, if_neg h7]
    exact ⟨rfl, rfl⟩

/-- On a non-panic outcome, `parse_frame` keeps the caller's buffer. -/
theorem parse_frame_fail_inv {s : H2Codec} {h : H2FrameHeader} {p : List Nat} {t : H2Codec}
    {m : String} (hx : H2Codec.parse_frame s h p = .fail t m) :
    t.buffer = s.buffer ∧ t.preface_received = s.preface_received := by
  have hv := parse_frame_stateInv s h p
  rw [hx] at hv
  exact hv

/-- On a successful outcome, `parse_frame` keeps the caller's buffer. -/
theorem parse_frame_done_inv {s : H2Codec} {h : H2FrameHeader} {p : List Nat} {t : H2Codec}
    {ev : Option H2Event} (hx : H2Codec.parse_frame s h p = .done t ev) :
    t.buffer = s.buffer ∧ t.preface_received = s.preface_received := by
  have hv := parse_frame_stateInv s h p
  rw [hx] at hv
  exact hv

/-! ### Helper lemmas about the frame header parser -/

/-- `H2FrameHeader.parse` yields nothing exactly on fewer than 9 bytes. -/
theorem parse_eq_none_iff (data : List Nat) :
    H2FrameHeader.parse data = none ↔ data.length < 9 := by
  unfold H2FrameHeader.parse
  split <;> simp_all

/-- `H2FrameHeader.parse` only inspects the first 9 bytes. -/
theorem parse_append (x b : List Nat) (hx : 9 ≤ x.length) :
    H2FrameHeader.parse (x ++ b) = H2FrameHeader.parse x := by
  unfold H2FrameHeader.parse
  rw [if_neg (by simp only [List.length_append]; omega), if_neg (by omega)]
  rw [List.getD_append x b 0 0 (by omega), List.getD_append x b 0 1 (by omega),
    List.getD_append x b 0 2 (by omega), List.getD_append x b 0 3 (by omega),
    List.getD_append x b 0 4 (by omega), List.getD_append x b 0 5 (by omega),
    List.getD_append x b 0 6 (by omega), List.getD_append x b 0 7 (by omega),
    List.getD_append x b 0 8 (by omega)]

/-! ### Fuel monotonicity for the frame loop -/

/-- One extra unit of fuel changes nothing once the fuel covers the buffer. -/
theorem processFrames_succ :
    ∀ (f : Nat) (s : H2Codec), s.buffer.length ≤ f →
      H2Codec.processFrames f s = H2Codec.processFrames (f + 1) s := by
  intro f
  induction f with
  | zero =>
    intro s hs
    simp only [H2Codec.processFrames]
    rw [if_pos (by omega)]
  | succ f ih =>
    intro s hs
    rw [H2Codec.processFrames, H2Codec.processFrames]
    by_cases h9 : s.buffer.length < 9
    · rw [if_pos h9, if_pos h9]
    rw [if_neg h9, if_neg h9]
    cases hp : H2FrameHeader.parse s.buffer with
    | none => rfl
    | some header =>
      dsimp only
      by_cases hc : s.buffer.length < header.total_size
      · rw [if_pos hc, if_pos hc]
      rw [if_neg hc, if_neg hc]
      cases hx : H2Codec.parse_frame { s with buffer := s.buffer.drop header.total_size } header
          ((s.buffer.take header.total_size).drop 9) with
      | panic => rfl
      | fail t m => rfl
      | done t ev =>
        dsimp only
        have ht : t.buffer = s.buffer.drop header.total_size := (parse_frame_done_inv hx).1
        have hlen : t.buffer.length ≤ f := by
          rw [ht, List.length_drop]
          have : 9 ≤ header.total_size := by
            unfold H2FrameHeader.total_size
            omega
          omega
        rw [ih t hlen]

/-- Fuel beyond the buffer length never changes the loop's outcome. -/
theorem processFrames_add (k f : Nat) (s : H2Codec) (hs : s.buffer.length ≤ f) :
    H2Codec.processFrames f s = H2Codec.processFrames (f + k) s := by
  induction k with
  | zero => rfl
  | succ k ih =>
    rw [ih, processFrames_succ (f + k) s (by omega), Nat.add_assoc]

/-- The frame loop with its canonical fuel (the buffer length), as used by
`process`. -/
def H2Codec.run (s : H2Codec) : ProcResult :=
  H2Codec.processFrames s.buffer.length s

/-- Any adequate fuel computes the canonical run. -/
theorem processFrames_canon (f : Nat) (s : H2Codec) (hs : s.buffer.length ≤ f) :
    H2Codec.processFrames f s = H2Codec.run s := by
  unfold H2Codec.run
  have h1 := processFrames_add (f - s.buffer.length) s.buffer.length s le_rfl
  rw [h1]
  congr 1
  omega

/-- A successful frame loop leaves the preface flag unchanged. -/
theorem processFrames_ok_preface :
    ∀ (f : Nat) (s t : H2Codec) (evs : List H2Event),
      H2Codec.processFrames f s = .ok t evs → t.preface_received = s.preface_received := by
  intro f
  induction f with
  | zero =>
    intro s t evs h
    rw [H2Codec.processFrames] at h
    cases h
    rfl
  | succ f ih =>
    intro s t evs h
    rw [H2Codec.processFrames] at h
    by_cases h9 : s.buffer.length < 9
    · rw [if_pos h9] at h
      cases h
      rfl
    rw [if_neg h9] at h
    cases hp : H2FrameHeader.parse s.buffer with
    | none =>
      rw [hp] at h
      cases h
      rfl
    | some header =>
      rw [hp] at h
      dsimp only at h
      by_cases hc : s.buffer.length < header.total_size
      · rw [if_pos hc] at h
        cases h
        rfl
      rw [if_neg hc] at h
      cases hx : H2Codec.parse_frame { s with buffer := s.buffer.drop header.total_size } header
          ((s.buffer.take header.total_size).drop 9) with
      | panic => rw [hx] at h; cases h
      | fail u m => rw [hx] at h; cases h
      | done u ev =>
        rw [hx] at h
        dsimp only at h
        cases hr : H2Codec.processFrames f u with
        | panic => rw [hr] at h; cases h
        | fail v m => rw [hr] at h; cases h
        | ok v evs2 =>
          rw [hr] at h
          dsimp only [ProcResult.consEv] at h
          have hv : v = t := by cases h; rfl
          have h1 := ih u v evs2 hr
          have h2 := (parse_frame_done_inv hx).2
          rw [← hv, h1, h2]

/-- An erroring frame loop leaves the buffer a suffix of what it started
with: consumed frames are gone for good, nothing is rolled back. -/
theorem processFrames_fail_suffix :
    ∀ (f : Nat) (s t : H2Codec) (m : String),
      H2Codec.processFrames f s = .fail t m → List.IsSuffix t.buffer s.buffer := by
  intro f
  induction f with
  | zero =>
    intro s t m h
    rw [H2Codec.processFrames] at h
    cases h
  | succ f ih =>
    intro s t m h
    rw [H2Codec.processFrames] at h
    by_cases h9 : s.buffer.length < 9
    · rw [if_pos h9] at h
      cases h
    rw [if_neg h9] at h
    cases hp : H2FrameHeader.parse s.buffer with
    | none => rw [hp] at h; cases h
    | some header =>
      rw [hp] at h
      dsimp only at h
      by_cases hc : s.buffer.length < header.total_size
      · rw [if_pos hc] at h
        cases h
      rw [if_neg hc] at h
      cases hx : H2Codec.parse_frame { s with buffer := s.buffer.drop header.total_size } header
          ((s.buffer.take header.total_size).drop 9) with
      | panic => rw [hx] at h; cases h
      | fail u m2 =>
        rw [hx] at h
        cases h
        have hb : t.buffer = s.buffer.drop header.total_size := (parse_frame_fail_inv hx).1
        rw [hb]
        exact List.drop_suffix _ _
      | done u ev =>
        rw [hx] at h
        dsimp only at h
        cases hr : H2Codec.processFrames f u with
        | panic => rw [hr] at h; cases h
        | fail v m2 =>
          rw [hr] at h
          dsimp only [ProcResult.consEv] at h
          have hv : v = t ∧ m2 = m := by cases h; exact ⟨rfl, rfl⟩
          have h1 := ih u v m2 hr
          rw [← hv.1]
          have hb : u.buffer = s.buffer.drop header.total_size := (parse_frame_done_inv hx).1
          rw [hb] at h1
          exact h1.trans (List.drop_suffix _ _)
        | ok v evs2 => rw [hr] at h; cases h

/-! ### Compositionality of the frame loop under buffer extension -/

/-- Prepending no events is the identity. -/
theorem mapEvents_nil (r : ProcResult) : r.mapEvents (fun x => [] ++ x) = r := by
  cases r <;> rfl

/-- Prepending a frame's event commutes with prepending earlier events. -/
theorem consEv_mapEvents (ev : Option H2Event) (e : List H2Event) (r : ProcResult) :
    (r.mapEvents (fun x => e ++ x)).consEv ev =
      r.mapEvents (fun x =>
        (match ev with
          | some a => a :: e
          | none => e) ++ x) := by
  cases r <;> cases ev <;> rfl

set_option maxHeartbeats 1000000 in
/-- Extending the buffer by `b` factors a canonical-fuel frame-loop run into
the run on the original buffer followed by a run of the leftover plus `b`,
with the events concatenated; errors and panics surface unchanged. -/
theorem processFrames_append :
    ∀ (f : Nat) (s : H2Codec) (b : List Nat), s.buffer.length ≤ f →
      H2Codec.processFrames (s.buffer.length + b.length) { s with buffer := s.buffer ++ b } =
        match H2Codec.processFrames f s with
        | .panic => .panic
        | .fail t m => .fail { t with buffer := t.buffer ++ b } m
        | .ok t e =>
          (H2Codec.processFrames (t.buffer.length + b.length)
              { t with buffer := t.buffer ++ b }).mapEvents (fun x => e ++ x) := by
  intro f
  induction f with
  | zero =>
    intro s b hs
    rw [H2Codec.processFrames]
    dsimp only
    rw [mapEvents_nil]
  | succ f ih =>
    intro s b hs
    by_cases h9 : s.buffer.length < 9
    · rw [H2Codec.processFrames, if_pos h9]
      dsimp only
      rw [mapEvents_nil]
    rw [H2Codec.processFrames, if_neg h9]
    cases hp : H2FrameHeader.parse s.buffer with
    | none =>
      rw [parse_eq_none_iff] at hp
      omega
    | some header =>
      dsimp only
      have ht9 : 9 ≤ header.total_size := by
        unfold H2FrameHeader.total_size
        omega
      by_cases hc : s.buffer.length < header.total_size
      · rw [if_pos hc]
        dsimp only
        rw [mapEvents_nil]
      rw [if_neg hc]
      obtain ⟨k, hk⟩ : ∃ k, s.buffer.length + b.length = k + 1 :=
        ⟨s.buffer.length + b.length - 1, by omega⟩
      rw [hk, H2Codec.processFrames]
      dsimp only
      rw [if_neg (by rw [List.length_append]; omega)]
      rw [parse_append s.buffer b (by omega), hp]
      dsimp only
      rw [if_neg (by rw [List.length_append]; omega)]
      rw [List.take_append_of_le_length (by omega),
        List.drop_append_of_le_length (by omega)]
      have hpf := parse_frame_setBuf { s with buffer := s.buffer.drop header.total_size } header
        ((s.buffer.take header.total_size).drop 9) (s.buffer.drop header.total_size ++ b)
      dsimp only at hpf
      rw [hpf]
      cases hx : H2Codec.parse_frame { s with buffer := s.buffer.drop header.total_size } header
          ((s.buffer.take header.total_size).drop 9) with
      | panic => rfl
      | fail u m =>
        have hub : u.buffer = s.buffer.drop header.total_size := (parse_frame_fail_inv hx).1
        dsimp only [FrameResult.setBuf]
        rw [hub]
      | done u ev =>
        have hub : u.buffer = s.buffer.drop header.total_size := (parse_frame_done_inv hx).1
        have hu : u.buffer.length ≤ f := by
          rw [hub, List.length_drop]
          omega
        dsimp only [FrameResult.setBuf]
        rw [← hub]
        have hkb : ({ u with buffer := u.buffer ++ b } : H2Codec).buffer.length ≤ k := by
          simp only [List.length_append]
          rw [hub, List.length_drop]
          omega
        rw [processFrames_canon k _ hkb,
          ← processFrames_canon (u.buffer.length + b.length) { u with buffer := u.buffer ++ b }
            (by simp only [List.length_append]; omega)]
        rw [ih u b hu]
        cases hr : H2Codec.processFrames f u with
        | panic => rfl
        | fail v m => rfl
        | ok v e =>
          rw [consEv_mapEvents]
          cases ev <;> rfl

/-- Canonical-fuel version of `processFrames_append`. -/
theorem run_append (s : H2Codec) (b : List Nat) :
    H2Codec.run { s with buffer := s.buffer ++ b } =
      match H2Codec.run s with
      | .panic => .panic
      | .fail t m => .fail { t with buffer := t.buffer ++ b } m
      | .ok t e =>
        (H2Codec.run { t with buffer := t.buffer ++ b }).mapEvents (fun x => e ++ x) := by
  unfold H2Codec.run
  have hlen : ({ s with buffer := s.buffer ++ b } : H2Codec).buffer.length
      = s.buffer.length + b.length := List.length_append _ _
  rw [hlen, processFrames_append s.buffer.length s b le_rfl]
  cases hr : H2Codec.processFrames s.buffer.length s with
  | panic => rfl
  | fail t m => rfl
  | ok t e =>
    dsimp only
    have hlt : ({ t with buffer := t.buffer ++ b } : H2Codec).buffer.length
        = t.buffer.length + b.length := List.length_append _ _
    rw [hlt]

/-- Once the preface has been received, `process` is exactly the frame loop on
the extended buffer. -/
theorem process_eq_run (s : H2Codec) (data : List Nat) (hp : s.preface_received = true) :
    H2Codec.process s data = H2Codec.run { s with buffer := s.buffer ++ data } := by
  have hcond : ¬ (s.preface_received = false ∧ 24 ≤ (s.buffer ++ data).length ∧
      (s.buffer ++ data).take 24 = CONNECTION_PREFACE) := by
    rw [hp]
    simp
  unfold H2Codec.process H2Codec.run
  dsimp only
  rw [if_neg hcond]

/-- A successful `process` call keeps the preface flag set. -/
theorem process_ok_preface (s : H2Codec) (data : List Nat) (t : H2Codec) (evs : List H2Event)
    (hp : s.preface_received = true) (h : H2Codec.process s data = .ok t evs) :
    t.preface_received = true := by
  rw [process_eq_run s data hp] at h
  unfold H2Codec.run at h
  have h2 := processFrames_ok_preface _ _ _ _ h
  exact h2.trans hp

/-- Past the preface, an error-free `process` of a whole input is refined by
any split of that input into a nonempty sequence of `process` calls: the
chunked run succeeds with the same concatenated events and the same final
state. -/
theorem processChunks_eq_join :
    ∀ (chunks : List (List Nat)) (s t : H2Codec) (evs : List H2Event),
      s.preface_received = true → chunks ≠ [] →
      H2Codec.process s chunks.flatten = .ok t evs →
      H2Codec.processChunks s chunks = .ok t evs := by
  intro chunks
  induction chunks with
  | nil => intro s t evs _ hne _; exact absurd rfl hne
  | cons c cs ih =>
    intro s t evs hp _ h
    cases cs with
    | nil =>
      have hj : ([c] : List (List Nat)).flatten = c := by simp
      rw [hj] at h
      simp only [H2Codec.processChunks]
      rw [h]
      simp [H2Codec.processChunks, ProcResult.mapEvents]
    | cons c2 cs2 =>
      have hj : ((c :: c2 :: cs2).flatten : List Nat) = c ++ (c2 :: cs2).flatten := by simp
      rw [hj, process_eq_run s _ hp] at h
      have hassoc : s.buffer ++ (c ++ (c2 :: cs2).flatten) =
          (s.buffer ++ c) ++ (c2 :: cs2).flatten := (List.append_assoc _ _ _).symm
      rw [hassoc] at h
      rw [show ({ s with buffer := (s.buffer ++ c) ++ (c2 :: cs2).flatten } : H2Codec) =
        { ({ s with buffer := s.buffer ++ c } : H2Codec) with
            buffer := ({ s with buffer := s.buffer ++ c } : H2Codec).buffer ++ (c2 :: cs2).flatten }
        from rfl] at h
      rw [run_append { s with buffer := s.buffer ++ c } ((c2 :: cs2).flatten)] at h
      cases hr : H2Codec.run { s with buffer := s.buffer ++ c } with
      | panic => rw [hr] at h; cases h
      | fail u m => rw [hr] at h; cases h
      | ok u e =>
        rw [hr] at h
        dsimp only at h
        have hpu : u.preface_received = true := by
          have h2 := processFrames_ok_preface _ _ _ _ hr
          exact h2.trans hp
        rw [← process_eq_run u _ hpu] at h
        cases hq : H2Codec.process u ((c2 :: cs2).flatten) with
        | panic => rw [hq] at h; cases h
        | fail v m => rw [hq] at h; cases h
        | ok v evs2 =>
          rw [hq] at h
          dsimp only [ProcResult.mapEvents] at h
          obtain ⟨hv, hevs⟩ : v = t ∧ e ++ evs2 = evs := by cases h; exact ⟨rfl, rfl⟩
          have hchunks : H2Codec.processChunks u (c2 :: cs2) = .ok t evs2 :=
            ih u t evs2 hpu (by simp) (hv ▸ hq)
          conv_lhs => rw [H2Codec.processChunks]
          rw [process_eq_run s c hp, hr]
          dsimp only
          rw [hchunks]
          dsimp only [ProcResult.mapEvents]
          rw [hevs]

/-! ### Arm-level characterizations of `parse_frame` -/

/-- Masking with `0x7FFFFFFF` is reduction mod `2 ^ 31`. -/
theorem land_mask31 (x : Nat) : x &&& 0x7FFFFFFF = x % 2 ^ 31 := by
  have h := Nat.and_pow_two_sub_one_eq_mod x 31
  norm_num at h ⊢
  exact h

/-- The stream-table entry value written by the DATA and HEADERS arms:
the present entry (or a default one) with `stream_ended` set when the frame
carries END_STREAM. -/
def updatedStream (s : H2Codec) (h : H2FrameHeader) : StreamState :=
  if h.is_end_stream then
    { (findStream s.streams h.stream_id).getD defaultStreamState with stream_ended := true }
  else (findStream s.streams h.stream_id).getD defaultStreamState

/-- The DATA dispatch arm of `parse_frame`. -/
theorem parse_frame_data_arm (s : H2Codec) (h : H2FrameHeader) (p : List Nat)
    (hft : h.frame_type = frame_type.DATA) :
    H2Codec.parse_frame s h p =
      match H2Codec.extract_data_payload h p with
      | .error e => .fail s e
      | .ok d =>
        .done { s with streams := setStream s.streams h.stream_id (updatedStream s h) }
          (some (.data h.stream_id d h.is_end_stream)) := by
  unfold H2Codec.parse_frame updatedStream
  rw [hft, if_pos rfl]

/-- Mark a stream-table entry's header block complete. -/
def markedComplete (st : StreamState) : StreamState :=
  { st with headers_complete := true }

/-- The HEADERS dispatch arm of `parse_frame`. -/
theorem parse_frame_headers_arm (s : H2Codec) (h : H2FrameHeader) (p : List Nat)
    (hft : h.frame_type = frame_type.HEADERS) :
    H2Codec.parse_frame s h p =
      match H2Codec.extract_headers_payload h p with
      | none => .panic
      | some (.error e) => .fail s e
      | some (.ok header_block) =>
        if h.is_end_headers then
          .done
            { s with
              streams := setStream s.streams h.stream_id (markedComplete (updatedStream s h)) }
            (some (.headers h.stream_id header_block h.is_end_stream))
        else if header_block.length > MAX_HEADER_BLOCK_SIZE then
          .fail { s with streams := setStream s.streams h.stream_id (updatedStream s h) }
            ("Header block too large (" ++ toString header_block.length ++ " bytes, max " ++
              toString MAX_HEADER_BLOCK_SIZE ++ ")")
        else
          .done
            { s with
              streams := setStream s.streams h.stream_id (updatedStream s h)
              pending_headers_stream := some h.stream_id
              pending_headers_end_stream := h.is_end_stream
              pending_header_block := header_block }
            none := by
  unfold H2Codec.parse_frame updatedStream markedComplete
  rw [hft, if_neg (by decide), if_pos rfl]

/-- The CONTINUATION dispatch arm of `parse_frame`. -/
theorem parse_frame_continuation_arm (s : H2Codec) (h : H2FrameHeader) (p : List Nat)
    (hft : h.frame_type = frame_type.CONTINUATION) :
    H2Codec.parse_frame s h p =
      match s.pending_headers_stream with
      | some pending_stream =>
        if pending_stream ≠ h.stream_id then
          .fail s
            ("CONTINUATION for stream " ++ toString h.stream_id ++
              " but pending headers on stream " ++ toString pending_stream)
        else if s.pending_header_block.length + p.length > MAX_HEADER_BLOCK_SIZE then
          .fail { s with pending_headers_stream := none, pending_header_block := [] }
            ("Header block too large (" ++
              toString (s.pending_header_block.length + p.length) ++ " bytes, max " ++
              toString MAX_HEADER_BLOCK_SIZE ++ ")")
        else if h.is_end_headers then
          .done
            { s with
              streams := setStream s.streams h.stream_id
                (markedComplete ((findStream s.streams h.stream_id).getD defaultStreamState))
              pending_header_block := []
              pending_headers_stream := none
              pending_headers_end_stream := false }
            (some (.headers h.stream_id (s.pending_header_block ++ p)
              s.pending_headers_end_stream))
        else .done { s with pending_header_block := s.pending_header_block ++ p } none
      | none => .fail s ("Unexpected CONTINUATION frame for stream " ++ toString h.stream_id) := by
  unfold H2Codec.parse_frame markedComplete
  rw [hft, if_neg (by decide), if_neg (by decide), if_pos rfl]

/-- The WINDOW_UPDATE dispatch arm of `parse_frame`. -/
theorem parse_frame_window_update_arm (s : H2Codec) (h : H2FrameHeader) (p : List Nat)
    (hft : h.frame_type = frame_type.WINDOW_UPDATE) :
    H2Codec.parse_frame s h p =
      if p.length < 4 then .fail s "WINDOW_UPDATE frame too short"
      else
        .done s (some (.windowUpdate h.stream_id
          (be32 (p.getD 0 0) (p.getD 1 0) (p.getD 2 0) (p.getD 3 0) &&& 0x7FFFFFFF))) := by
  unfold H2Codec.parse_frame
  rw [hft, if_neg (by decide), if_neg (by decide), if_neg (by decide), if_neg (by decide),
    if_neg (by decide), if_neg (by decide), if_pos rfl]

/-! ### Claim theorems -/

/-- C2: on a codec past the preface with no pending assembly, HEADERS on
stream 1 with flags 0 and payload [0x82,0x86,0x84] followed by CONTINUATION
on stream 1 with END_HEADERS and payload [0x41,0x8a] yields exactly one
Headers event with stream_id 1, header_block [0x82,0x86,0x84,0x41,0x8a] and
end_stream false; and every Headers event emitted from a CONTINUATION frame
carries exactly the END_STREAM flag stored from the originating HEADERS
frame, regardless of the CONTINUATION frame's own flags. -/
theorem c2_continuation_assembly :
    (H2Codec.process pastPrefaceCodec
        ([0, 0, 3, 1, 0, 0, 0, 0, 1, 0x82, 0x86, 0x84] ++
          [0, 0, 2, 9, 4, 0, 0, 0, 1, 0x41, 0x8a]) =
      .ok ⟨[], [(1, ⟨true, false⟩)], true, none, false, []⟩
        [.headers 1 [0x82, 0x86, 0x84, 0x41, 0x8a] false]) ∧
    (∀ (s : H2Codec) (h : H2FrameHeader) (p : List Nat) (t : H2Codec) (sid : Nat)
        (blk : List Nat) (es : Bool),
      h.frame_type = frame_type.CONTINUATION →
      H2Codec.parse_frame s h p = .done t (some (.headers sid blk es)) →
      es = s.pending_headers_end_stream) := by
  refine ⟨by decide, ?_⟩
  intro s h p t sid blk es hft hdone
  rw [parse_frame_continuation_arm s h p hft] at hdone
  cases hps : s.pending_headers_stream with
  | none => rw [hps] at hdone; cases hdone
  | some q =>
    rw [hps] at hdone
    dsimp only at hdone
    split_ifs at hdone with h1 h2 h3 <;>
      first
        | (cases hdone; rfl)
        | simp at hdone

/-- C2 witness: a concrete CONTINUATION finalization whose emitted
`end_stream` is the stored flag. -/
theorem c2_continuation_assembly_witness :
    H2Codec.parse_frame (⟨[], [], true, some 1, false, [0x82]⟩ : H2Codec)
        ⟨1, 9, 4, 1⟩ [0x99] =
      .done ⟨[], [(1, ⟨true, false⟩)], true, none, false, []⟩
        (some (.headers 1 [0x82, 0x99] false)) ∧
    false = (⟨[], [], true, some 1, false, [0x82]⟩ : H2Codec).pending_headers_end_stream := by
  have hd : H2Codec.parse_frame (⟨[], [], true, some 1, false, [0x82]⟩ : H2Codec)
      ⟨1, 9, 4, 1⟩ [0x99] =
      .done ⟨[], [(1, ⟨true, false⟩)], true, none, false, []⟩
        (some (.headers 1 [0x82, 0x99] false)) := by decide
  exact ⟨hd, c2_continuation_assembly.2 _ _ _ _ _ _ _ rfl hd⟩

/-- C3: with a pending assembly on `sid`, a CONTINUATION on `sid` is accepted
while the accumulated size stays at or below 262144; one pushing the size
strictly above 262144 fails with a message carrying the attempted size and
the limit and clears the pending assembly, after which any CONTINUATION
fails as unexpected. -/
theorem c3_header_block_size_guard (s : H2Codec) (h h2 : H2FrameHeader) (p p2 : List Nat)
    (sid : Nat) (hp : s.pending_headers_stream = some sid)
    (hft : h.frame_type = frame_type.CONTINUATION) (hsid : h.stream_id = sid) :
    (s.pending_header_block.length + p.length ≤ MAX_HEADER_BLOCK_SIZE →
      ∃ t ev, H2Codec.parse_frame s h p = .done t ev) ∧
    (s.pending_header_block.length + p.length > MAX_HEADER_BLOCK_SIZE →
      H2Codec.parse_frame s h p =
        .fail { s with pending_headers_stream := none, pending_header_block := [] }
          ("Header block too large (" ++
            toString (s.pending_header_block.length + p.length) ++ " bytes, max " ++
            toString MAX_HEADER_BLOCK_SIZE ++ ")") ∧
      (h2.frame_type = frame_type.CONTINUATION →
        H2Codec.parse_frame
            { s with pending_headers_stream := none, pending_header_block := [] } h2 p2 =
          .fail { s with pending_headers_stream := none, pending_header_block := [] }
            ("Unexpected CONTINUATION frame for stream " ++ toString h2.stream_id))) := by
  constructor
  · intro hle
    rw [parse_frame_continuation_arm s h p hft, hp]
    dsimp only
    rw [if_neg (by simp [hsid]), if_neg (by omega)]
    split_ifs with he
    · exact ⟨_, _, rfl⟩
    · exact ⟨_, _, rfl⟩
  · intro hgt
    constructor
    · rw [parse_frame_continuation_arm s h p hft, hp]
      dsimp only
      rw [if_neg (by simp [hsid]), if_pos (by omega)]
    · intro hft2
      rw [parse_frame_continuation_arm _ h2 p2 hft2]

/-- C3 witness: a block of 262145 accumulated bytes trips the guard, clears
the assembly, and the next CONTINUATION is unexpected. -/
theorem c3_header_block_size_guard_witness :
    H2Codec.parse_frame
        (⟨[], [], true, some 1, false, List.replicate 262145 0⟩ : H2Codec) ⟨0, 9, 4, 1⟩ [] =
      .fail (⟨[], [], true, none, false, []⟩ : H2Codec)
        ("Header block too large (" ++ toString (262145 : Nat) ++ " bytes, max " ++
          toString MAX_HEADER_BLOCK_SIZE ++ ")") ∧
    H2Codec.parse_frame (⟨[], [], true, none, false, []⟩ : H2Codec) ⟨0, 9, 4, 1⟩ [] =
      .fail (⟨[], [], true, none, false, []⟩ : H2Codec)
        ("Unexpected CONTINUATION frame for stream " ++
          toString (H2FrameHeader.mk 0 9 4 1).stream_id) := by
  have hproj : (⟨[], [], true, some 1, false, List.replicate 262145 0⟩
      : H2Codec).pending_header_block = List.replicate 262145 0 := rfl
  have hgt : (⟨[], [], true, some 1, false, List.replicate 262145 0⟩
      : H2Codec).pending_header_block.length + ([] : List Nat).length
      > MAX_HEADER_BLOCK_SIZE := by
    rw [hproj, List.length_replicate, List.length_nil]
    norm_num [MAX_HEADER_BLOCK_SIZE]
  have h := (c3_header_block_size_guard
    (⟨[], [], true, some 1, false, List.replicate 262145 0⟩ : H2Codec)
    ⟨0, 9, 4, 1⟩ ⟨0, 9, 4, 1⟩ [] [] 1 rfl rfl rfl).2 hgt
  obtain ⟨h1, h2⟩ := h
  constructor
  · rw [show (⟨[], [], true, some 1, false, List.replicate 262145 0⟩
        : H2Codec).pending_header_block.length + ([] : List Nat).length = 262145 from by
      rw [hproj, List.length_replicate, List.length_nil]] at h1
    exact h1
  · exact h2 rfl

/-- C4: a CONTINUATION with no pending assembly errors; one naming a stream
other than the pending assembly's errors with a message naming both the
received and the pending stream ids; concretely, HEADERS on stream 1 without
END_HEADERS followed by CONTINUATION on stream 3 fails naming stream 3 as
received and stream 1 as pending. -/
theorem c4_continuation_protocol_errors :
    (∀ (s : H2Codec) (h : H2FrameHeader) (p : List Nat),
      h.frame_type = frame_type.CONTINUATION → s.pending_headers_stream = none →
      H2Codec.parse_frame s h p =
        .fail s ("Unexpected CONTINUATION frame for stream " ++ toString h.stream_id)) ∧
    (∀ (s : H2Codec) (h : H2FrameHeader) (p : List Nat) (sid : Nat),
      h.frame_type = frame_type.CONTINUATION → s.pending_headers_stream = some sid →
      h.stream_id ≠ sid →
      H2Codec.parse_frame s h p =
        .fail s ("CONTINUATION for stream " ++ toString h.stream_id ++
          " but pending headers on stream " ++ toString sid)) ∧
    (H2Codec.process pastPrefaceCodec
        ([0, 0, 2, 1, 0, 0, 0, 0, 1, 0x82, 0x86] ++ [0, 0, 1, 9, 4, 0, 0, 0, 3, 0x84]) =
      .fail ⟨[], [(1, ⟨false, false⟩)], true, some 1, false, [0x82, 0x86]⟩
        "CONTINUATION for stream 3 but pending headers on stream 1") := by
  refine ⟨?_, ?_, by decide⟩
  · intro s h p hft hnone
    rw [parse_frame_continuation_arm s h p hft, hnone]
  · intro s h p sid hft hsome hne
    rw [parse_frame_continuation_arm s h p hft, hsome]
    dsimp only
    rw [if_pos (Ne.symm hne)]

/-- C4 witness: concrete unexpected and mismatched CONTINUATION errors. -/
theorem c4_continuation_protocol_errors_witness :
    H2Codec.parse_frame pastPrefaceCodec ⟨2, 9, 4, 1⟩ [0x82, 0x86] =
      .fail pastPrefaceCodec
        ("Unexpected CONTINUATION frame for stream " ++
          toString (H2FrameHeader.mk 2 9 4 1).stream_id) ∧
    H2Codec.parse_frame (⟨[], [], true, some 1, false, [0x82]⟩ : H2Codec) ⟨1, 9, 4, 3⟩ [0x84] =
      .fail (⟨[], [], true, some 1, false, [0x82]⟩ : H2Codec)
        ("CONTINUATION for stream " ++ toString (H2FrameHeader.mk 1 9 4 3).stream_id ++
          " but pending headers on stream " ++ toString (1 : Nat)) :=
  ⟨c4_continuation_protocol_errors.1 _ _ _ rfl rfl,
    c4_continuation_protocol_errors.2.1 _ _ _ 1 rfl rfl (by decide)⟩

/-- C5 (code bug): a HEADERS frame with both PADDED and PRIORITY whose
declared padding leaves fewer than 5 bytes after pad stripping does not
produce an error result: the source reaches `payload.drain(..offset)` with
`offset` past the truncated length and panics (modelled as `none`/`panic`).
Without PADDED, the sub-5-byte PRIORITY check does error cleanly. -/
theorem c5_padded_priority_panic :
    H2Codec.extract_headers_payload ⟨10, 1, 40, 1⟩ [8, 1, 2, 3, 4, 5, 6, 7, 8, 9] = none ∧
    H2Codec.process pastPrefaceCodec
        ([0, 0, 10, 1, 40, 0, 0, 0, 1] ++ [8, 1, 2, 3, 4, 5, 6, 7, 8, 9]) = .panic ∧
    (∀ (s : H2Codec) (h : H2FrameHeader) (p : List Nat),
      h.frame_type = frame_type.HEADERS → h.flags &&& flags.PADDED = 0 →
      h.flags &&& flags.PRIORITY ≠ 0 → p.length < 5 →
      H2Codec.parse_frame s h p =
        .fail s "PRIORITY HEADERS frame with insufficient data") := by
  refine ⟨rfl, by decide, ?_⟩
  intro s h p hft hpad0 hprio hlen
  have hex : H2Codec.extract_headers_payload h p =
      some (.error "PRIORITY HEADERS frame with insufficient data") := by
    unfold H2Codec.extract_headers_payload
    rw [if_neg (by simp [hpad0])]
    dsimp only
    rw [if_pos (by simp only [bne_iff_ne]; exact hprio), if_pos (by omega)]
  rw [parse_frame_headers_arm s h p hft, hex]

/-- C5 witness-style instance of the clean-error part at a concrete input. -/
theorem c5_padded_priority_panic_witness :
    H2Codec.parse_frame pastPrefaceCodec ⟨4, 1, 0x20, 1⟩ [0, 0, 0, 0] =
      .fail pastPrefaceCodec "PRIORITY HEADERS frame with insufficient data" :=
  c5_padded_priority_panic.2.2 _ _ _ rfl (by decide) (by decide) (by decide)

/-- C6: for a PADDED DATA frame, `parse_frame` (and hence `process`) errors
exactly when the payload is empty or the declared pad length is at least the
payload byte count; otherwise it emits a Data event whose bytes are the
payload with the 1-byte pad-length prefix and the trailing padding removed. -/
theorem c6_padded_data_frames (s : H2Codec) (h : H2FrameHeader) (p : List Nat)
    (hft : h.frame_type = frame_type.DATA) (hpad : h.flags &&& flags.PADDED ≠ 0) :
    (p = [] → H2Codec.parse_frame s h p = .fail s "PADDED DATA frame with no payload") ∧
    (p ≠ [] → p.headD 0 ≥ p.length →
      H2Codec.parse_frame s h p = .fail s "Invalid padding length in DATA frame") ∧
    (p ≠ [] → p.headD 0 < p.length →
      H2Codec.parse_frame s h p =
        .done { s with streams := setStream s.streams h.stream_id (updatedStream s h) }
          (some (.data h.stream_id ((p.drop 1).take (p.length - 1 - p.headD 0))
            h.is_end_stream))) := by
  have hbne : (h.flags &&& flags.PADDED != 0) = true := by
    simp only [bne_iff_ne]
    exact hpad
  refine ⟨?_, ?_, ?_⟩
  · intro hnil
    have hex : H2Codec.extract_data_payload h p = .error "PADDED DATA frame with no payload" := by
      unfold H2Codec.extract_data_payload
      rw [if_pos hbne, if_pos hnil]
    rw [parse_frame_data_arm s h p hft, hex]
  · intro hne hge
    have hex : H2Codec.extract_data_payload h p =
        .error "Invalid padding length in DATA frame" := by
      unfold H2Codec.extract_data_payload
      rw [if_pos hbne, if_neg hne]
      dsimp only
      rw [if_pos hge]
    rw [parse_frame_data_arm s h p hft, hex]
  · intro hne hlt
    have hex : H2Codec.extract_data_payload h p =
        .ok ((p.take (p.length - p.headD 0)).drop 1) := by
      unfold H2Codec.extract_data_payload
      rw [if_pos hbne, if_neg hne]
      dsimp only
      rw [if_neg (by omega)]
    rw [parse_frame_data_arm s h p hft, hex]
    dsimp only
    rw [List.drop_take, Nat.sub_right_comm]

/-- C6 witness: a padded "hello" DATA frame and an invalid-padding frame. -/
theorem c6_padded_data_frames_witness :
    H2Codec.parse_frame pastPrefaceCodec ⟨10, 0, 9, 1⟩ [4, 104, 101, 108, 108, 111, 0, 0, 0, 0] =
      .done ⟨[], [(1, ⟨false, true⟩)], true, none, false, []⟩
        (some (.data 1 [104, 101, 108, 108, 111] true)) ∧
    H2Codec.parse_frame pastPrefaceCodec ⟨1, 0, 8, 1⟩ [5] =
      .fail pastPrefaceCodec "Invalid padding length in DATA frame" := by
  have h1 := (c6_padded_data_frames pastPrefaceCodec ⟨10, 0, 9, 1⟩
    [4, 104, 101, 108, 108, 111, 0, 0, 0, 0] rfl (by decide)).2.2 (by decide) (by decide)
  have h2 := (c6_padded_data_frames pastPrefaceCodec ⟨1, 0, 8, 1⟩ [5] rfl
    (by decide)).2.1 (by decide) (by decide)
  exact ⟨h1.trans (by decide), h2⟩

/-- C7: when a frame in a multi-frame `process` call fails, the call returns
the error and no events (the error outcome carries no event list, exactly as
the Rust `Result` drops the collected vector), while the connection buffer is
left a suffix of the buffered input — consumed bytes are never rolled back.
Concretely, DATA("hello", END_STREAM) followed by a 2-byte WINDOW_UPDATE
returns only the error, with the buffer fully advanced past both frames and
the DATA frame's stream-state mutation retained, although the same DATA frame
alone yields a Data event. -/
theorem c7_error_propagation :
    (∀ (s : H2Codec) (data : List Nat) (t : H2Codec) (m : String),
      H2Codec.process s data = .fail t m → List.IsSuffix t.buffer (s.buffer ++ data)) ∧
    (H2Codec.process pastPrefaceCodec [0, 0, 5, 0, 1, 0, 0, 0, 1, 104, 101, 108, 108, 111] =
      .ok ⟨[], [(1, ⟨false, true⟩)], true, none, false, []⟩
        [.data 1 [104, 101, 108, 108, 111] true]) ∧
    (H2Codec.process pastPrefaceCodec
        ([0, 0, 5, 0, 1, 0, 0, 0, 1, 104, 101, 108, 108, 111] ++
          [0, 0, 2, 8, 0, 0, 0, 0, 1, 0, 0]) =
      .fail ⟨[], [(1, ⟨false, true⟩)], true, none, false, []⟩
        "WINDOW_UPDATE frame too short") := by
  refine ⟨?_, by decide, by decide⟩
  intro s data t m h
  unfold H2Codec.process at h
  dsimp only at h
  split_ifs at h with hpre
  · have hs := processFrames_fail_suffix _ _ _ _ h
    exact hs.trans (List.drop_suffix _ _)
  · exact processFrames_fail_suffix _ _ _ _ h

/-- C7 witness: the buffer left by the concrete failing call is a suffix of
the input. -/
theorem c7_error_propagation_witness :
    H2Codec.process pastPrefaceCodec
        ([0, 0, 5, 0, 1, 0, 0, 0, 1, 104, 101, 108, 108, 111] ++
          [0, 0, 2, 8, 0, 0, 0, 0, 1, 0, 0]) =
      .fail ⟨[], [(1, ⟨false, true⟩)], true, none, false, []⟩
        "WINDOW_UPDATE frame too short" ∧
    List.IsSuffix (H2Codec.mk [] [(1, ⟨false, true⟩)] true none false []).buffer
      (pastPrefaceCodec.buffer ++
        ([0, 0, 5, 0, 1, 0, 0, 0, 1, 104, 101, 108, 108, 111] ++
          [0, 0, 2, 8, 0, 0, 0, 0, 1, 0, 0])) := by
  have hd : H2Codec.process pastPrefaceCodec
      ([0, 0, 5, 0, 1, 0, 0, 0, 1, 104, 101, 108, 108, 111] ++
        [0, 0, 2, 8, 0, 0, 0, 0, 1, 0, 0]) =
      .fail ⟨[], [(1, ⟨false, true⟩)], true, none, false, []⟩
        "WINDOW_UPDATE frame too short" := by decide
  exact ⟨hd, c7_error_propagation.1 _ _ _ _ hd⟩

/-- C8: frame-header parsing requires 9 bytes and yields `none` exactly on
fewer; on enough bytes the stream id is the 32-bit big-endian wire value
with bit 31 masked off (raw 0x80000005 parses to 5), and a WINDOW_UPDATE
with at least 4 payload bytes emits the 32-bit big-endian increment with
bit 31 masked off. -/
theorem c8_reserved_bit_parsing :
    (∀ data : List Nat, H2FrameHeader.parse data = none ↔ data.length < 9) ∧
    (∀ data : List Nat, 9 ≤ data.length →
      H2FrameHeader.parse data = some
        ⟨(data.getD 0 0) * 2 ^ 16 + (data.getD 1 0) * 2 ^ 8 + data.getD 2 0,
          data.getD 3 0, data.getD 4 0,
          ((data.getD 5 0) * 2 ^ 24 + (data.getD 6 0) * 2 ^ 16 +
            (data.getD 7 0) * 2 ^ 8 + data.getD 8 0) % 2 ^ 31⟩) ∧
    (H2FrameHeader.parse [0, 0, 0, 4, 0, 0x80, 0, 0, 5] = some ⟨0, 4, 0, 5⟩) ∧
    (∀ (s : H2Codec) (h : H2FrameHeader) (p : List Nat),
      h.frame_type = frame_type.WINDOW_UPDATE → 4 ≤ p.length →
      H2Codec.parse_frame s h p = .done s (some (.windowUpdate h.stream_id
        (be32 (p.getD 0 0) (p.getD 1 0) (p.getD 2 0) (p.getD 3 0) % 2 ^ 31)))) := by
  refine ⟨parse_eq_none_iff, ?_, by decide, ?_⟩
  · intro data hlen
    unfold H2FrameHeader.parse
    rw [if_neg (by omega), land_mask31]
  · intro s h p hft hlen
    rw [parse_frame_window_update_arm s h p hft, if_neg (by omega), land_mask31]

/-- C8 witness: parsing with the reserved bit set in the stream id and in a
WINDOW_UPDATE increment yields the masked values. -/
theorem c8_reserved_bit_parsing_witness :
    H2FrameHeader.parse [0, 0, 4, 8, 0, 0x80, 0, 0, 5] = some ⟨4, 8, 0, 5⟩ ∧
    H2Codec.parse_frame pastPrefaceCodec ⟨4, 8, 0, 5⟩ [0x80, 1, 0, 0] =
      .done pastPrefaceCodec (some (.windowUpdate 5 65536)) := by
  constructor
  · have h := c8_reserved_bit_parsing.2.1 [0, 0, 4, 8, 0, 0x80, 0, 0, 5] (by decide)
    exact h.trans (by decide)
  · have h := c8_reserved_bit_parsing.2.2.2 pastPrefaceCodec ⟨4, 8, 0, 5⟩ [0x80, 1, 0, 0]
      rfl (by decide)
    exact h.trans (by decide)

/-- C9 counterexample: for the caller-supplied stream id 0x80000005 the
builders emit the raw big-endian id with bit 31 still set — the first
stream-id byte is 0x80 and the 4-byte field decodes back to 0x80000005, so
the claim's "bit 31 cleared for every caller-supplied stream id" is false. -/
theorem c9_claim_counterexample :
    ¬ ((H2Codec.create_rst_stream (2 ^ 31 + 5) 13).getD 5 0 < 128) ∧
    ¬ ((H2Codec.create_window_update (2 ^ 31 + 5) 1).getD 5 0 < 128) ∧
    ¬ ((H2Codec.create_continuation_frame (2 ^ 31 + 5) [] true).getD 5 0 < 128) ∧
    be32 ((H2Codec.create_rst_stream (2 ^ 31 + 5) 13).getD 5 0)
        ((H2Codec.create_rst_stream (2 ^ 31 + 5) 13).getD 6 0)
        ((H2Codec.create_rst_stream (2 ^ 31 + 5) 13).getD 7 0)
        ((H2Codec.create_rst_stream (2 ^ 31 + 5) 13).getD 8 0) = 2 ^ 31 + 5 := by
  decide

/-- C9 (amended): for every caller-supplied stream id below 2^31 the builders
create_rst_stream, create_window_update and create_continuation_frame emit a
stream-id field with bit 31 clear (first id byte below 0x80), and each is a
total function returning a complete frame of the expected length. -/
theorem c9_builders_reserved_bit (stream_id : Nat) (hs : stream_id < 2 ^ 31)
    (error_code increment : Nat) (payload : List Nat) (end_headers : Bool) :
    (H2Codec.create_rst_stream stream_id error_code).getD 5 0 < 128 ∧
    (H2Codec.create_window_update stream_id increment).getD 5 0 < 128 ∧
    (H2Codec.create_continuation_frame stream_id payload end_headers).getD 5 0 < 128 ∧
    (H2Codec.create_rst_stream stream_id error_code).length = 13 ∧
    (H2Codec.create_window_update stream_id increment).length = 13 ∧
    (H2Codec.create_continuation_frame stream_id payload end_headers).length =
      9 + payload.length := by
  have h1 : stream_id / 2 ^ 24 < 128 := by
    apply Nat.div_lt_of_lt_mul
    norm_num at hs ⊢
    omega
  have hb : stream_id / 2 ^ 24 % 256 < 128 := lt_of_le_of_lt (Nat.mod_le _ _) h1
  refine ⟨?_, ?_, ?_, ?_, ?_, ?_⟩
  · simp only [H2Codec.create_rst_stream, H2Codec.toBeBytes4, List.cons_append,
      List.nil_append, List.getD_cons_succ, List.getD_cons_zero]
    exact hb
  · simp only [H2Codec.create_window_update, List.getD_cons_succ, List.getD_cons_zero]
    exact hb
  · simp only [H2Codec.create_continuation_frame, List.cons_append, List.getD_cons_succ,
      List.getD_cons_zero]
    exact hb
  · simp [H2Codec.create_rst_stream, H2Codec.toBeBytes4]
  · simp [H2Codec.create_window_update]
  · simp [H2Codec.create_continuation_frame]
    omega

/-- C9 witness: the amended statement at stream id 5. -/
theorem c9_builders_reserved_bit_witness :
    (5 : Nat) < 2 ^ 31 ∧ (H2Codec.create_rst_stream 5 13).getD 5 0 < 128 :=
  ⟨by norm_num, (c9_builders_reserved_bit 5 (by norm_num) 13 1 [] true).1⟩

/-- C10 counterexample: a HEADERS frame without END_HEADERS processed while a
pending assembly exists can still return an error (here: invalid padding), so
the claim's unconditional "does not return an error" is false as stated. -/
theorem c10_claim_counterexample :
    H2Codec.parse_frame (⟨[], [], true, some 1, false, [0x82]⟩ : H2Codec) ⟨1, 1, 8, 3⟩ [5] =
      .fail (⟨[], [], true, some 1, false, [0x82]⟩ : H2Codec)
        "Invalid padding length in HEADERS frame" := by
  decide

/-- C10 (amended): a well-formed HEADERS frame without END_HEADERS (payload
extraction succeeds, fragment at most 262144 bytes) processed while a
pending assembly exists on any stream does not return an error: it silently
replaces the pending assembly with the new frame's stream id, fragment and
END_STREAM flag, discarding the previously accumulated header-block bytes. -/
theorem c10_headers_replace_pending (s : H2Codec) (h : H2FrameHeader) (p : List Nat)
    (q : Nat) (blk : List Nat)
    (_hpend : s.pending_headers_stream = some q)
    (hft : h.frame_type = frame_type.HEADERS)
    (hne : h.is_end_headers = false)
    (hex : H2Codec.extract_headers_payload h p = some (.ok blk))
    (hsz : blk.length ≤ MAX_HEADER_BLOCK_SIZE) :
    H2Codec.parse_frame s h p =
      .done
        { s with
          streams := setStream s.streams h.stream_id (updatedStream s h)
          pending_headers_stream := some h.stream_id
          pending_headers_end_stream := h.is_end_stream
          pending_header_block := blk }
        none := by
  rw [parse_frame_headers_arm s h p hft, hex]
  dsimp only
  rw [if_neg (by rw [hne]; simp), if_neg (by omega)]

/-- C10 witness: a pending assembly on stream 1 is silently replaced by a
fresh HEADERS fragment on stream 3. -/
theorem c10_headers_replace_pending_witness :
    H2Codec.parse_frame (⟨[], [], true, some 1, false, [0x82]⟩ : H2Codec) ⟨2, 1, 0, 3⟩
        [0x99, 0x9a] =
      .done (⟨[], [(3, ⟨false, false⟩)], true, some 3, false, [0x99, 0x9a]⟩ : H2Codec)
        none := by
  have h := c10_headers_replace_pending (⟨[], [], true, some 1, false, [0x82]⟩ : H2Codec)
    ⟨2, 1, 0, 3⟩ [0x99, 0x9a] 1 [0x99, 0x9a] rfl rfl (by decide) rfl
    (by norm_num [MAX_HEADER_BLOCK_SIZE])
  exact h.trans (by decide)

/-- C1 (amended): on a fresh codec that has already received the connection
preface, if processing a whole byte sequence in one `process` call produces
no error, then feeding the same bytes split at arbitrary offsets across any
nonempty sequence of `process` calls yields exactly the same concatenated
event sequence (and the same final state). -/
theorem c1_split_invariance (chunks : List (List Nat)) (t : H2Codec) (evs : List H2Event)
    (hne : chunks ≠ [])
    (h : H2Codec.process pastPrefaceCodec chunks.flatten = .ok t evs) :
    H2Codec.processChunks pastPrefaceCodec chunks = .ok t evs :=
  processChunks_eq_join chunks pastPrefaceCodec t evs rfl hne h

/-- C1 witness: the "hello" DATA frame split mid-payload across two calls. -/
theorem c1_split_invariance_witness :
    H2Codec.processChunks pastPrefaceCodec
        [[0, 0, 5, 0, 1, 0, 0, 0, 1, 104], [101, 108, 108, 111]] =
      .ok ⟨[], [(1, ⟨false, true⟩)], true, none, false, []⟩
        [.data 1 [104, 101, 108, 108, 111] true] :=
  c1_split_invariance [[0, 0, 5, 0, 1, 0, 0, 0, 1, 104], [101, 108, 108, 111]]
    ⟨[], [(1, ⟨false, true⟩)], true, none, false, []⟩ [.data 1 [104, 101, 108, 108, 111] true]
    (by decide) (by decide)

/-- C1 counterexample: on a fresh codec (preface not yet received) the claim
fails as stated — an error-free whole-call run of
SETTINGS ++ preface ++ SETTINGS yields one event, while splitting the same
bytes into two calls lets the second call's preface check consume the
embedded preface and parse the trailing SETTINGS, yielding two events. -/
theorem c1_claim_counterexample :
    H2Codec.process H2Codec.new
        ([0, 0, 0, 4, 0, 0, 0, 0, 0] ++ CONNECTION_PREFACE ++ [0, 0, 0, 4, 0, 0, 0, 0, 0]) =
      .ok ⟨CONNECTION_PREFACE ++ [0, 0, 0, 4, 0, 0, 0, 0, 0], [], false, none, false, []⟩
        [.settings false []] ∧
    H2Codec.processChunks H2Codec.new
        [[0, 0, 0, 4, 0, 0, 0, 0, 0], CONNECTION_PREFACE ++ [0, 0, 0, 4, 0, 0, 0, 0, 0]] =
      .ok ⟨[], [], true, none, false, []⟩ [.settings false [], .settings false []] ∧
    ([[0, 0, 0, 4, 0, 0, 0, 0, 0], CONNECTION_PREFACE ++ [0, 0, 0, 4, 0, 0, 0, 0, 0]] :
        List (List Nat)).flatten =
      [0, 0, 0, 4, 0, 0, 0, 0, 0] ++ CONNECTION_PREFACE ++ [0, 0, 0, 4, 0, 0, 0, 0, 0] ∧
    ([.settings false []] : List H2Event) ≠ [.settings false [], .settings false []] := by
  refine ⟨by decide, by decide, by decide, by decide⟩
